import Mathlib

/-!
Verification development for the `cate` utility (a `cat` clone with encoding
detection and terminal syntax highlighting).  The definitions below are a
shallow embedding of the relevant parts of `src/encoder.rs`, `src/highlighter.rs`,
`src/printer.rs` and `src/main.rs`.  Bytes are modelled as `Nat` values
(always < 256 at every use site), byte sequences as `List Nat`, and Rust
strings as Lean `String`.  External collaborators (the `encoding_rs` decoder,
the `syntect` grammar engine, the terminal) are modelled at their interface,
as functions or function parameters, following their documented behaviour.
-/

namespace Cate

/-- Decidable equality for `Except`, used to evaluate concrete runs. -/
instance exceptDecEq {ε α : Type} [DecidableEq ε] [DecidableEq α] :
    DecidableEq (Except ε α) := fun a b =>
  match a, b with
  | Except.ok x, Except.ok y =>
    if h : x = y then isTrue (by rw [h]) else isFalse (fun hc => h (Except.ok.inj hc))
  | Except.error x, Except.error y =>
    if h : x = y then isTrue (by rw [h]) else isFalse (fun hc => h (Except.error.inj hc))
  | Except.ok _, Except.error _ => isFalse (fun hc => Except.noConfusion hc)
  | Except.error _, Except.ok _ => isFalse (fun hc => Except.noConfusion hc)

/-! ## Encoding resolver (src/encoder.rs) -/

/-- The encodings the program mentions by name.  `encoding_rs` supports more,
but the embedding only ever needs the ones reachable from `encoder.rs`:
the three Unicode encodings recognisable by BOM, and the legacy encodings
named in `get_system_encoding` / `parse_encoding`. -/
inductive Encoding where
  | utf8
  | utf16le
  | utf16be
  | gbk
  | shift_jis
  | big5
  | windows1252
deriving DecidableEq

/-- Model of `EncodingConfidence` from src/encoder.rs. -/
inductive EncodingConfidence where
  | Certain
  | High
  | Low
deriving DecidableEq

/-- Model of `DetectedEncoding` from src/encoder.rs. -/
structure DetectedEncoding where
  encoding : Encoding
  confidence : EncodingConfidence
deriving DecidableEq

/-- Model of `encoding_rs::Encoding::for_bom`: recognises the UTF-8 BOM `EF BB BF`,
then the UTF-16LE BOM `FF FE`, then the UTF-16BE BOM `FE FF`; returns the
encoding together with the BOM length. -/
def forBom : List Nat → Option (Encoding × Nat)
  | 0xEF :: 0xBB :: 0xBF :: _ => some (Encoding.utf8, 3)
  | 0xFF :: 0xFE :: _ => some (Encoding.utf16le, 2)
  | 0xFE :: 0xFF :: _ => some (Encoding.utf16be, 2)
  | _ => none

/-- A UTF-8 continuation byte, `0x80 ..= 0xBF`. -/
def contB (b : Nat) : Bool := decide (0x80 ≤ b) && decide (b ≤ 0xBF)

/-- Model of `std::str::from_utf8(bytes).is_ok()`: whole-sequence UTF-8 validity,
following the RFC 3629 byte ranges exactly as Rust core does (overlong
forms, surrogates and values above U+10FFFF are invalid). -/
def validUtf8 : List Nat → Bool
  | [] => true
  | b :: rest =>
    if b ≤ 0x7F then validUtf8 rest
    else if b < 0xC2 then false
    else if b ≤ 0xDF then
      match rest with
      | c :: r => contB c && validUtf8 r
      | [] => false
    else if b ≤ 0xEF then
      match rest with
      | c1 :: c2 :: r =>
        (if b = 0xE0 then decide (0xA0 ≤ c1) && decide (c1 ≤ 0xBF)
         else if b = 0xED then decide (0x80 ≤ c1) && decide (c1 ≤ 0x9F)
         else contB c1) && contB c2 && validUtf8 r
      | _ => false
    else if b ≤ 0xF4 then
      match rest with
      | c1 :: c2 :: c3 :: r =>
        (if b = 0xF0 then decide (0x90 ≤ c1) && decide (c1 ≤ 0xBF)
         else if b = 0xF4 then decide (0x80 ≤ c1) && decide (c1 ≤ 0x8F)
         else contB c1) && contB c2 && contB c3 && validUtf8 r
      | _ => false
    else false

/-- Model of `haystack.contains(needle)` on Rust strings, at the character level. -/
def containsSub (needle haystack : List Char) : Bool :=
  haystack.tails.any (fun t => needle.isPrefixOf t)

/-- Rust `str::to_lowercase`, modelled at the character level (ASCII case
folding, which covers every grammar and theme name in the bundled data). -/
def lowerStr (s : String) : String := String.mk (s.data.map Char.toLower)

/-- Rust `str::starts_with`, at the character level. -/
def startsWithStr (s pre : String) : Bool := pre.data.isPrefixOf s.data

/-- Model of `get_system_encoding` for non-Windows targets (src/encoder.rs): inspects
the LANG environment variable but returns UTF-8 on every path. -/
def get_system_encoding_unix (lang : Option String) : Encoding :=
  match lang with
  | some l =>
    if containsSub "utf-8".data (lowerStr l).data || containsSub "utf8".data (lowerStr l).data then
      Encoding.utf8
    else Encoding.utf8
  | none => Encoding.utf8

/-- Model of `get_system_encoding` for Windows targets (src/encoder.rs): maps the
active code page to an encoding, defaulting to UTF-8. -/
def get_system_encoding_windows (code_page : Nat) : Encoding :=
  match code_page with
  | 936 => Encoding.gbk
  | 950 => Encoding.big5
  | 932 => Encoding.shift_jis
  | 1252 => Encoding.windows1252
  | 65001 => Encoding.utf8
  | _ => Encoding.utf8

/-- Model of `detect_encoding` from src/encoder.rs.  The ambient platform encoding
(the value `get_system_encoding()` would return) is passed explicitly as
`system_encoding`; the `debug` parameter of the source only drives
`eprintln!` tracing and is omitted. -/
def detect_encoding (bytes : List Nat) (user_encoding : Option Encoding)
    (system_encoding : Encoding) : DetectedEncoding :=
  match forBom bytes with
  | some (encoding, _bom_length) => ⟨encoding, EncodingConfidence.Certain⟩
  | none =>
    if validUtf8 bytes then ⟨Encoding.utf8, EncodingConfidence.High⟩
    else
      match user_encoding with
      | some encoding => ⟨encoding, EncodingConfidence.Certain⟩
      | none => ⟨system_encoding, EncodingConfidence.Low⟩

/-! ### The decoder (`encoding_rs::Encoding::decode`)

`decode` is an external library call.  Its interface shape is the load-bearing
fact for the claims: it is total, returning the decoded text together with a
boolean malformed-input flag, with no error channel.  We model it for the
three Unicode encodings exactly (WHATWG decode with BOM sniffing and
maximal-subpart replacement).  For the legacy table-driven encodings the
tables are external data; the model keeps only their ASCII-identity property
and replaces every non-ASCII byte (no theorem below depends on a legacy
branch). -/

/-- The replacement character U+FFFD. -/
def repl : Char := Char.ofNat 0xFFFD

/-- A two-byte lead byte, `0xC2 ..= 0xDF`. -/
def lead2 (b : Nat) : Bool := decide (0xC2 ≤ b) && decide (b ≤ 0xDF)

/-- A three-byte lead byte, `0xE0 ..= 0xEF`. -/
def lead3 (b : Nat) : Bool := decide (0xE0 ≤ b) && decide (b ≤ 0xEF)

/-- A four-byte lead byte, `0xF0 ..= 0xF4`. -/
def lead4 (b : Nat) : Bool := decide (0xF0 ≤ b) && decide (b ≤ 0xF4)

/-- Valid first continuation byte after a three-byte lead (narrowed ranges
for `0xE0` and `0xED` rule out overlong forms and surrogates). -/
def cont3ok (b c1 : Nat) : Bool :=
  if b = 0xE0 then decide (0xA0 ≤ c1) && decide (c1 ≤ 0xBF)
  else if b = 0xED then decide (0x80 ≤ c1) && decide (c1 ≤ 0x9F)
  else contB c1

/-- Valid first continuation byte after a four-byte lead (narrowed ranges
for `0xF0` and `0xF4` rule out overlong forms and values above U+10FFFF). -/
def cont4ok (b c1 : Nat) : Bool :=
  if b = 0xF0 then decide (0x90 ≤ c1) && decide (c1 ≤ 0xBF)
  else if b = 0xF4 then decide (0x80 ≤ c1) && decide (c1 ≤ 0x8F)
  else contB c1

/-- Assemble a two-byte scalar value. -/
def char2 (b c : Nat) : Char := Char.ofNat ((b - 0xC0) * 64 + (c - 0x80))

/-- Assemble a three-byte scalar value. -/
def char3 (b c1 c2 : Nat) : Char :=
  Char.ofNat ((b - 0xE0) * 4096 + (c1 - 0x80) * 64 + (c2 - 0x80))

/-- Assemble a four-byte scalar value. -/
def char4 (b c1 c2 c3 : Nat) : Char :=
  Char.ofNat ((b - 0xF0) * 262144 + (c1 - 0x80) * 4096 + (c2 - 0x80) * 64 + (c3 - 0x80))

/-- WHATWG UTF-8 decode with replacement (maximal-subpart policy): on a
malformed sequence, the longest valid prefix of a sequence is consumed,
one U+FFFD is emitted, and decoding resumes at the first offending byte. -/
def utf8DecodeChars : List Nat → List Char × Bool
  | [] => ([], false)
  | [b] =>
    if b ≤ 0x7F then ([Char.ofNat b], false)
    else ([repl], true)
  | [b, c1] =>
    if b ≤ 0x7F then
      let (cs, e) := utf8DecodeChars [c1]
      (Char.ofNat b :: cs, e)
    else if lead2 b && contB c1 then ([char2 b c1], false)
    else if (lead3 b && cont3ok b c1) || (lead4 b && cont4ok b c1) then
      ([repl], true)
    else
      let (cs, _) := utf8DecodeChars [c1]
      (repl :: cs, true)
  | [b, c1, c2] =>
    if b ≤ 0x7F then
      let (cs, e) := utf8DecodeChars [c1, c2]
      (Char.ofNat b :: cs, e)
    else if lead2 b && contB c1 then
      let (cs, e) := utf8DecodeChars [c2]
      (char2 b c1 :: cs, e)
    else if lead3 b && cont3ok b c1 && contB c2 then ([char3 b c1 c2], false)
    else if lead3 b && cont3ok b c1 then
      let (cs, _) := utf8DecodeChars [c2]
      (repl :: cs, true)
    else if lead4 b && cont4ok b c1 && contB c2 then ([repl], true)
    else if lead4 b && cont4ok b c1 then
      let (cs, _) := utf8DecodeChars [c2]
      (repl :: cs, true)
    else
      let (cs, _) := utf8DecodeChars [c1, c2]
      (repl :: cs, true)
  | b :: c1 :: c2 :: c3 :: rest =>
    if b ≤ 0x7F then
      let (cs, e) := utf8DecodeChars (c1 :: c2 :: c3 :: rest)
      (Char.ofNat b :: cs, e)
    else if lead2 b && contB c1 then
      let (cs, e) := utf8DecodeChars (c2 :: c3 :: rest)
      (char2 b c1 :: cs, e)
    else if lead3 b && cont3ok b c1 && contB c2 then
      let (cs, e) := utf8DecodeChars (c3 :: rest)
      (char3 b c1 c2 :: cs, e)
    else if lead3 b && cont3ok b c1 then
      let (cs, _) := utf8DecodeChars (c2 :: c3 :: rest)
      (repl :: cs, true)
    else if lead4 b && cont4ok b c1 && contB c2 && contB c3 then
      let (cs, e) := utf8DecodeChars rest
      (char4 b c1 c2 c3 :: cs, e)
    else if lead4 b && cont4ok b c1 && contB c2 then
      let (cs, _) := utf8DecodeChars (c3 :: rest)
      (repl :: cs, true)
    else if lead4 b && cont4ok b c1 then
      let (cs, _) := utf8DecodeChars (c2 :: c3 :: rest)
      (repl :: cs, true)
    else
      let (cs, _) := utf8DecodeChars (c1 :: c2 :: c3 :: rest)
      (repl :: cs, true)

/-- Pair up bytes into 16-bit code units (little- or big-endian).  The
boolean reports a trailing lone byte, which the WHATWG UTF-16 decoder turns
into a final replacement character. -/
def bytesToUnits (le : Bool) : List Nat → List Nat × Bool
  | b1 :: b2 :: rest =>
    let u := if le then b1 + 256 * b2 else 256 * b1 + b2
    let (us, e) := bytesToUnits le rest
    (u :: us, e)
  | [_] => ([], true)
  | [] => ([], false)

/-- WHATWG UTF-16 code-unit sequence to characters: surrogate pairs are
combined; an unpaired surrogate becomes U+FFFD with the error flag set. -/
def unitsToChars : List Nat → List Char × Bool
  | [] => ([], false)
  | [u] =>
    if decide (0xD800 ≤ u) && decide (u ≤ 0xDFFF) then ([repl], true)
    else ([Char.ofNat u], false)
  | u :: v :: rest2 =>
    if (decide (0xD800 ≤ u) && decide (u ≤ 0xDBFF)) &&
        (decide (0xDC00 ≤ v) && decide (v ≤ 0xDFFF)) then
      let (cs, e) := unitsToChars rest2
      (Char.ofNat (0x10000 + (u - 0xD800) * 0x400 + (v - 0xDC00)) :: cs, e)
    else if decide (0xD800 ≤ u) && decide (u ≤ 0xDFFF) then
      let (cs, _) := unitsToChars (v :: rest2)
      (repl :: cs, true)
    else
      let (cs, e) := unitsToChars (v :: rest2)
      (Char.ofNat u :: cs, e)

/-- UTF-16 decode with replacement (after any BOM has been removed). -/
def decodeUtf16 (le : Bool) (bytes : List Nat) : String × Bool :=
  let (units, lone) := bytesToUnits le bytes
  let (cs, err) := unitsToChars units
  (String.mk (cs ++ if lone then [repl] else []), err || lone)

/-- Legacy table-driven decode, modelled only on its ASCII-identity property:
bytes below 0x80 decode to themselves in every WHATWG legacy encoding; the
actual non-ASCII tables are external data, so a non-ASCII byte is modelled
as a replacement with the error flag set.  No theorem depends on this branch. -/
def asciiLossy (bytes : List Nat) : String × Bool :=
  (String.mk (bytes.map (fun b => if b ≤ 0x7F then Char.ofNat b else repl)),
   bytes.any (fun b => decide (0x7F < b)))

/-- Decode once any BOM has been handled. -/
def decodeNoBom : Encoding → List Nat → String × Bool
  | Encoding.utf8, bytes =>
    let (cs, e) := utf8DecodeChars bytes
    (String.mk cs, e)
  | Encoding.utf16le, bytes => decodeUtf16 true bytes
  | Encoding.utf16be, bytes => decodeUtf16 false bytes
  | _, bytes => asciiLossy bytes

/-- Model of `encoding_rs::Encoding::decode`: BOM sniffing (a recognised BOM overrides
the chosen encoding and is stripped from the output), then replacement
decoding; always total, returning the text and the malformed-input flag. -/
def decodeBytes (enc : Encoding) (bytes : List Nat) : String × Bool :=
  match forBom bytes with
  | some (bomEnc, n) => decodeNoBom bomEnc (bytes.drop n)
  | none => decodeNoBom enc bytes

/-- Model of `read_file_with_encoding` from src/encoder.rs, after the point where the
raw bytes have been obtained (`fs::read` is modelled by the `readResult`
argument; `read_stdin_with_encoding` has the same shape).  The decoder is a
parameter with the exact interface shape of `encoding_rs::Encoding::decode`:
total, no error channel.  Note that the `had_errors` flag returned by the
decoder is bound and then used only for a debug `eprintln!` in the source;
it is not part of the returned value. -/
def read_file_with_encoding (readResult : Except String (List Nat))
    (user_encoding : Option Encoding) (system_encoding : Encoding)
    (decode : Encoding → List Nat → String × Bool) :
    Except String (String × DetectedEncoding) :=
  match readResult with
  | Except.error e => Except.error e
  | Except.ok bytes =>
    let detected := detect_encoding bytes user_encoding system_encoding
    let (cow, _had_errors) := decode detected.encoding bytes
    Except.ok (cow, detected)

/-! ## Highlighter (src/highlighter.rs)

The `syntect` grammar engine is an external collaborator.  A grammar
(`SyntaxReference`; named `Syn` here because some source identifiers collide
with Lean keywords) is modelled by the two fields the selection logic reads:
its name and its list of file extensions.  The registry (`SYNTAX_SET`) keeps
the grammar list together with the opaque first-line (shebang) regex matcher
and the plain-text grammar that `find_syntax_plain_text` returns.  The
stateful tokenizer (`HighlightLines`) is modelled by an explicit state type
`σ` with a step function supplied by a `GrammarEngine`. -/

/-- Model of `syntect::parsing::SyntaxReference`, restricted to the fields the
selection logic in src/highlighter.rs reads. -/
structure Syn where
  name : String
  file_extensions : List String
deriving DecidableEq

/-- The process-wide grammar registry `SYNTAX_SET`: the grammar list, the
first-line (shebang) matcher backed by external regex data, and the grammar
returned by `find_syntax_plain_text` (named "Plain Text" in the bundled
dataset). -/
structure SynSet where
  syntaxes : List Syn
  byFirstLine : String → Option Syn
  plain : Syn

/-- Model of `syntect`: `SyntaxSet::find_syntax_by_name` — exact name match, searching
the grammar list in reverse order (later grammars win). -/
def SynSet.find_syn_by_name (ss : SynSet) (name : String) : Option Syn :=
  ss.syntaxes.reverse.find? (fun s => s.name == name)

/-- Model of `syntect`: `SyntaxSet::find_syntax_by_extension` — exact extension match,
searching the grammar list in reverse order. -/
def SynSet.find_syn_by_extension (ss : SynSet) (ext : String) : Option Syn :=
  ss.syntaxes.reverse.find? (fun s => s.file_extensions.any (fun e => e == ext))

/-- Model of `syntect`: `SyntaxSet::find_syntax_by_first_line`, backed by the grammar
first-line regexes (external data, kept opaque in the registry). -/
def SynSet.find_syn_by_first_line (ss : SynSet) (line : String) : Option Syn :=
  ss.byFirstLine line

/-- A Rust `Path`, modelled by its final component (`file_name`), which is
all the detection logic reads (`extension` is derived from it).  `none`
models a path with no final component. -/
structure RPath where
  fileName : Option String
deriving DecidableEq

/-- Model of `std::path::Path::extension` applied to a file name: the portion after
the last dot, none if there is no dot or if the only dot is the leading
character of the name. -/
def rustExtension (f : String) : Option String :=
  let r := f.data.reverse
  let pre := r.takeWhile (fun c => c != '.')
  if pre.length = r.length then none
  else if (r.drop (pre.length + 1)).isEmpty then none
  else some (String.mk pre.reverse)

/-- Model of `std::path::Path::extension` on the modelled path. -/
def RPath.extension (p : RPath) : Option String := p.fileName.bind rustExtension

/-- Model of `syntect::highlighting::Style`, restricted to the foreground colour,
which is all the serializers read (`as_24_bit_terminal_escaped` is called
with `bg = false` and `as_8bit_terminal_escaped` uses only the foreground). -/
structure Style where
  r : Nat
  g : Nat
  b : Nat
deriving DecidableEq

/-- The external per-line tokenizer machinery behind `HighlightLines` for a
fixed registry: creating the state for a chosen grammar and theme
(`HighlightLines::new`), stepping it over one line
(`HighlightLines::highlight_line`, which can fail), and the external
`ansi_colours::ansi256_from_rgb` palette quantizer. -/
structure GrammarEngine (σ : Type) where
  init : Syn → String → σ
  tokenize : σ → String → Except Unit (List (Style × String) × σ)
  ansi256 : Style → Nat

/-- Model of `syntect::util::as_24_bit_terminal_escaped` with `bg = false`: one
foreground escape per span, no reset. -/
def as_24_bit_terminal_escaped (ranges : List (Style × String)) : String :=
  ranges.foldl
    (fun acc p =>
      acc ++ "\x1b[38;2;" ++ toString p.1.r ++ ";" ++ toString p.1.g ++ ";" ++
        toString p.1.b ++ "m" ++ p.2)
    ""

/-- Model of `LineHighlighter::as_8bit_terminal_escaped` from src/highlighter.rs:
per span, a 256-colour foreground escape, the text, and a reset. -/
def as_8bit_terminal_escaped (ansi256 : Style → Nat) (ranges : List (Style × String)) : String :=
  ranges.foldl
    (fun acc p =>
      acc ++ "\x1b[38;5;" ++ toString (ansi256 p.1) ++ "m" ++ p.2 ++ "\x1b[0m")
    ""

/-- Rust `str::len()`: the UTF-8 byte length of a string. -/
def byteLen (s : String) : Nat := (s.data.map Char.utf8Size).sum

/-- The themes of `syntect::highlighting::ThemeSet::load_defaults`, which
backs the `THEME_SET` global of src/highlighter.rs. -/
def defaultThemes : List String :=
  ["InspiredGitHub", "Solarized (dark)", "Solarized (light)",
   "base16-eighties.dark", "base16-mocha.dark", "base16-ocean.dark",
   "base16-ocean.light"]

/-- Model of `Highlighter` from src/highlighter.rs; the cloned theme is modelled by
its name (theme contents are external data consumed through the engine). -/
structure Highlighter where
  theme : String
  true_color : Bool
deriving DecidableEq

/-- Model of `Highlighter::new` from src/highlighter.rs: default the theme name to
"base16-eighties.dark", then look it up in `THEME_SET`; an unknown name is
an error. -/
def Highlighter.new (theme_name : Option String) (true_color : Bool) :
    Except String Highlighter :=
  let n := theme_name.getD "base16-eighties.dark"
  if defaultThemes.contains n then Except.ok ⟨n, true_color⟩
  else Except.error ("Theme not found: " ++ n)

/-- Model of `Highlighter::find_syntax_by_name` from src/highlighter.rs: exact match
via the registry first, then a case-insensitive scan over grammar names and
their extensions (in forward order, as the source iterates). -/
def Highlighter.find_syn_by_name (ss : SynSet) (name : String) : Option Syn :=
  match SynSet.find_syn_by_name ss name with
  | some s => some s
  | none =>
    ss.syntaxes.find? (fun s =>
      lowerStr s.name == lowerStr name ||
        s.file_extensions.any (fun e => lowerStr e == lowerStr name))

/-- The special-filename arm of `detect_syntax` in src/highlighter.rs:
lower-cased names makefile/gnumakefile and dockerfile map to the Makefile
and Dockerfile grammars when those exist. -/
def special_filename (ss : SynSet) (name : String) : Option Syn :=
  match lowerStr name with
  | "makefile" => SynSet.find_syn_by_name ss "Makefile"
  | "gnumakefile" => SynSet.find_syn_by_name ss "Makefile"
  | "dockerfile" => SynSet.find_syn_by_name ss "Dockerfile"
  | _ => none

/-- The path-derived part of `Highlighter::detect_syntax`: extension lookup
first, then the file name (exact grammar-name match, then the special
names). -/
def syn_from_path (ss : SynSet) (p : RPath) : Option Syn :=
  match (match p.extension with
         | some ext => SynSet.find_syn_by_extension ss ext
         | none => none) with
  | some s => some s
  | none =>
    match p.fileName with
    | none => none
    | some name =>
      match SynSet.find_syn_by_name ss name with
      | some s => some s
      | none => special_filename ss name

/-- Model of `Highlighter::detect_syntax` from src/highlighter.rs: path-derived
lookup, then shebang matching on a first line starting with "#!", then the
plain-text fallback. -/
def detect_syn (ss : SynSet) (first_line : Option String) (file_path : Option RPath) : Syn :=
  match (match file_path with
         | some p => syn_from_path ss p
         | none => none) with
  | some s => s
  | none =>
    match (match first_line with
           | some l =>
             if startsWithStr l "#!" then SynSet.find_syn_by_first_line ss l else none
           | none => none) with
    | some s => s
    | none => ss.plain

/-- The grammar choice made by `Highlighter::prepare_for_file`: a manually
specified language wins when it matches; otherwise content/path detection. -/
def select_syn (ss : SynSet) (file_path : Option RPath) (first_line : Option String)
    (language : Option String) : Syn :=
  match language with
  | some lang =>
    match Highlighter.find_syn_by_name ss lang with
    | some s => s
    | none => detect_syn ss first_line file_path
  | none => detect_syn ss first_line file_path

/-- Model of `LineHighlighter` from src/highlighter.rs: the mutable `HighlightLines`
value is the state `σ`, threaded explicitly. -/
structure LineHighlighter (σ : Type) where
  state : σ
  true_color : Bool
  is_plain_text : Bool
deriving DecidableEq

/-- Model of `Highlighter::prepare_for_file` from src/highlighter.rs. -/
def Highlighter.prepare_for_file {σ : Type} (hl : Highlighter) (eng : GrammarEngine σ)
    (ss : SynSet) (file_path : Option RPath) (first_line : Option String)
    (language : Option String) : LineHighlighter σ :=
  let syn := select_syn ss file_path first_line language
  { state := eng.init syn hl.theme
    true_color := hl.true_color
    is_plain_text := syn.name == "Plain Text" }

/-- Model of `LineHighlighter::highlight_line` from src/highlighter.rs: plain text is
returned unchanged; a line longer than 16 KiB (Rust `len()`, i.e. UTF-8
bytes) skips tokenization but still feeds a bare "\n" to the tokenizer to
advance its state; otherwise the line is tokenized and serialized.  On a
tokenizer error the state is left untouched (the source surfaces the error
to the caller, which discards the highlighter result for that line). -/
def highlight_line {σ : Type} (eng : GrammarEngine σ) (lh : LineHighlighter σ)
    (line : String) : Except Unit (String × LineHighlighter σ) :=
  if lh.is_plain_text then Except.ok (line, lh)
  else if 16 * 1024 < byteLen line then
    match eng.tokenize lh.state "\n" with
    | Except.ok (_, s2) => Except.ok (line, { lh with state := s2 })
    | Except.error e => Except.error e
  else
    match eng.tokenize lh.state line with
    | Except.ok (ranges, s2) =>
      let escaped :=
        if lh.true_color then as_24_bit_terminal_escaped ranges
        else as_8bit_terminal_escaped eng.ansi256 ranges
      Except.ok (escaped, { lh with state := s2 })
    | Except.error e => Except.error e

/-- Model of `supports_true_color` from src/highlighter.rs, on the COLORTERM value. -/
def supports_true_color (colorterm : Option String) : Bool :=
  match colorterm with
  | some v => v == "truecolor" || v == "24bit"
  | none => false

/-! ## Streaming renderer (src/printer.rs) and colour mode (src/main.rs) -/

/-- The two kinds of write failure the renderer distinguishes. -/
inductive ErrorKind where
  | brokenPipe
  | other
deriving DecidableEq

/-- Model of `ColorMode` from src/main.rs. -/
inductive ColorMode where
  | Auto
  | Always
  | Never
deriving DecidableEq

/-- Model of `ColorMode::should_colorize` from src/main.rs; whether stdout is a
terminal is passed explicitly. -/
def ColorMode.should_colorize (m : ColorMode) (stdout_is_terminal : Bool) : Bool :=
  match m with
  | ColorMode.Auto => stdout_is_terminal
  | ColorMode.Always => true
  | ColorMode.Never => false

/-- Rust `char::is_whitespace` (the Unicode White_Space property), used by
`str::trim_end`. -/
def isRustWhitespace (c : Char) : Bool :=
  (decide (9 ≤ c.toNat) && decide (c.toNat ≤ 13)) || decide (c.toNat = 32) ||
    decide (c.toNat = 0x85) || decide (c.toNat = 0xA0) || decide (c.toNat = 0x1680) ||
    (decide (0x2000 ≤ c.toNat) && decide (c.toNat ≤ 0x200A)) ||
    decide (c.toNat = 0x2028) || decide (c.toNat = 0x2029) ||
    decide (c.toNat = 0x202F) || decide (c.toNat = 0x205F) || decide (c.toNat = 0x3000)

/-- Rust `str::trim_end`: remove all trailing White_Space characters. -/
def rustTrimEnd (s : String) : String :=
  String.mk (s.data.reverse.dropWhile isRustWhitespace).reverse

/-- Model of `print_single_line` from src/printer.rs: highlight the line, falling
back to the raw line on a highlight error; then write it (prefixed with the
line number when requested).  The write outcome of the underlying stdout
write is `w` (`none` = success); a BrokenPipe failure is swallowed as
success, and a failed write emits nothing.  Returns the threaded
highlighter, the bytes actually written, and the propagated result. -/
def print_single_line {σ : Type} (eng : GrammarEngine σ) (lh : LineHighlighter σ)
    (line : String) (line_number : Nat) (show_line_numbers : Bool)
    (w : Option ErrorKind) :
    LineHighlighter σ × String × Except ErrorKind Unit :=
  let (highlighted, lh2) :=
    match highlight_line eng lh line with
    | Except.ok (s, lh2) => (s, lh2)
    | Except.error _ => (line, lh)
  let msg :=
    if show_line_numbers then toString line_number ++ " " ++ highlighted
    else highlighted
  match w with
  | none => (lh2, msg, Except.ok ())
  | some ErrorKind.brokenPipe => (lh2, "", Except.ok ())
  | some k => (lh2, "", Except.error k)

/-- Model of `print_plain_line` from src/printer.rs: with line numbers it writes the
number, a space, the line with trailing whitespace trimmed, and a newline
(`writeln!`); without numbers it writes the line bytes unchanged (`write!`).
BrokenPipe is swallowed as success; a failed write emits nothing. -/
def print_plain_line (line : String) (line_number : Nat) (show_line_numbers : Bool)
    (w : Option ErrorKind) : String × Except ErrorKind Unit :=
  let msg :=
    if show_line_numbers then toString line_number ++ " " ++ rustTrimEnd line ++ "\n"
    else line
  match w with
  | none => (msg, Except.ok ())
  | some ErrorKind.brokenPipe => ("", Except.ok ())
  | some k => ("", Except.error k)

/-- The `while reader.read_line(..) > 0` loop of `print_content_streaming`:
each remaining line is printed (highlighted when a `LineHighlighter` is
present, plain otherwise) with an incrementing line number; a propagated
write error aborts the loop.  `w` indexes the write outcomes in `sink`.
Returns the concatenated written output and the loop result. -/
def renderLoop {σ : Type} (eng : GrammarEngine σ) (sink : Nat → Option ErrorKind)
    (show_line_numbers : Bool) :
    Option (LineHighlighter σ) → List String → Nat → Nat →
      String × Except ErrorKind Unit
  | _, [], _, _ => ("", Except.ok ())
  | some lh, line :: rest, n, w =>
    match print_single_line eng lh line n show_line_numbers (sink w) with
    | (lh2, out1, Except.ok _) =>
      (out1 ++ (renderLoop eng sink show_line_numbers (some lh2) rest (n + 1) (w + 1)).1,
       (renderLoop eng sink show_line_numbers (some lh2) rest (n + 1) (w + 1)).2)
    | (_, out1, Except.error k) => (out1, Except.error k)
  | none, line :: rest, n, w =>
    match print_plain_line line n show_line_numbers (sink w) with
    | (out1, Except.ok _) =>
      (out1 ++ (renderLoop eng sink show_line_numbers none rest (n + 1) (w + 1)).1,
       (renderLoop eng sink show_line_numbers none rest (n + 1) (w + 1)).2)
    | (out1, Except.error k) => (out1, Except.error k)

/-- Model of `print_content_streaming` from src/printer.rs.  The input is the list of
lines `BufRead::read_line` would yield (each with its terminator; a final
unterminated partial line when present).  When highlighting is enabled the
highlighter construction error is discarded (`.ok()`); with a highlighter in
hand the first line is read for shebang detection, printed as line 1, and
the loop then numbers remaining lines from 2 — in the plain path the loop
also starts at 2 but runs over every line.  `sink` gives the outcome of each
successive stdout write. -/
def print_content_streaming {σ : Type} (eng : GrammarEngine σ) (ss : SynSet)
    (lines : List String) (show_line_numbers : Bool) (file_path : Option RPath)
    (enable_highlighting : Bool) (theme : Option String) (language : Option String)
    (true_color : Bool) (sink : Nat → Option ErrorKind) :
    String × Except ErrorKind Unit :=
  let highlighter : Option Highlighter :=
    if enable_highlighting then (Highlighter.new theme true_color).toOption else none
  match highlighter with
  | some hl =>
    let first_line := (lines.head?).getD ""
    let rest := lines.tail
    let first_line_opt :=
      if first_line.isEmpty then none else some (rustTrimEnd first_line)
    let lh := Highlighter.prepare_for_file hl eng ss file_path first_line_opt language
    if first_line.isEmpty then
      renderLoop eng sink show_line_numbers (some lh) rest 2 0
    else
      match print_single_line eng lh first_line 1 show_line_numbers (sink 0) with
      | (lh2, out0, Except.ok _) =>
        (out0 ++ (renderLoop eng sink show_line_numbers (some lh2) rest 2 1).1,
         (renderLoop eng sink show_line_numbers (some lh2) rest 2 1).2)
      | (_, out0, Except.error k) => (out0, Except.error k)
  | none => renderLoop eng sink show_line_numbers none lines 2 0

/-- The lines `BufRead::read_line` yields from a `Cursor` over the decoded
text: split after every newline character, keeping terminators; a final
unterminated segment is yielded as-is; empty input yields nothing. -/
def splitLinesAux : List Char → List Char → List (List Char)
  | [], [] => []
  | [], acc => [acc.reverse]
  | c :: rest, acc =>
    if c = '\n' then (acc.reverse ++ [c]) :: splitLinesAux rest []
    else splitLinesAux rest (c :: acc)

/-- String-level wrapper for `splitLinesAux`. -/
def splitLinesKeepEnds (s : String) : List String :=
  (splitLinesAux s.data []).map String.mk

/-- Concatenation of a list of strings. -/
def concatLines : List String → String
  | [] => ""
  | l :: rest => l ++ concatLines rest

/-- The numbered plain output of the streaming loop from line number `n`:
number, space, trimmed line, newline, for each line in order. -/
def numberedFrom (n : Nat) : List String → String
  | [] => ""
  | l :: rest => toString n ++ " " ++ rustTrimEnd l ++ "\n" ++ numberedFrom (n + 1) rest

/-! ## Claims C1 and C2 -/

/-- C1: encoding resolution is first-match-wins: a recognised BOM gives that
encoding with confidence Certain regardless of any user hint; otherwise a
fully valid UTF-8 sequence gives UTF-8 with confidence High (ignoring any
hint); otherwise a supplied hint is used unvalidated with confidence Certain;
otherwise the platform default with confidence Low.  Moreover Certain arises
only via BOM or hint, High only via unmarked valid UTF-8, and Low only via
the platform-default fallback. -/
theorem c1_detect_encoding_priority (bytes : List Nat) (hint : Option Encoding)
    (sys : Encoding) :
    (∀ e n, forBom bytes = some (e, n) →
      detect_encoding bytes hint sys = ⟨e, EncodingConfidence.Certain⟩) ∧
    (forBom bytes = none → validUtf8 bytes = true →
      detect_encoding bytes hint sys = ⟨Encoding.utf8, EncodingConfidence.High⟩) ∧
    (∀ e, forBom bytes = none → validUtf8 bytes = false → hint = some e →
      detect_encoding bytes hint sys = ⟨e, EncodingConfidence.Certain⟩) ∧
    (forBom bytes = none → validUtf8 bytes = false → hint = none →
      detect_encoding bytes hint sys = ⟨sys, EncodingConfidence.Low⟩) ∧
    ((detect_encoding bytes hint sys).confidence = EncodingConfidence.Certain ↔
      (forBom bytes).isSome = true ∨ (validUtf8 bytes = false ∧ hint.isSome = true)) ∧
    ((detect_encoding bytes hint sys).confidence = EncodingConfidence.High ↔
      forBom bytes = none ∧ validUtf8 bytes = true) ∧
    ((detect_encoding bytes hint sys).confidence = EncodingConfidence.Low ↔
      forBom bytes = none ∧ validUtf8 bytes = false ∧ hint = none) := by
  unfold detect_encoding
  rcases hB : forBom bytes with _ | ⟨e, n⟩ <;>
    rcases hV : validUtf8 bytes <;>
      rcases hH : hint with _ | e0 <;>
        simp [hB, hV, hH]

/-- Witness for C1: the spec example bytes `EF BB BF 68 69` carry a UTF-8 BOM,
so even with a GBK user hint the resolution is UTF-8 with confidence Certain. -/
theorem c1_witness :
    detect_encoding [0xEF, 0xBB, 0xBF, 0x68, 0x69] (some Encoding.gbk) Encoding.utf8
      = ⟨Encoding.utf8, EncodingConfidence.Certain⟩ :=
  (c1_detect_encoding_priority [0xEF, 0xBB, 0xBF, 0x68, 0x69]
    (some Encoding.gbk) Encoding.utf8).1 Encoding.utf8 3 (by decide)

/-- C2 (amended): once the raw bytes are read, the read-and-decode operation
never returns an error — the decoder is total, with a malformed-input flag
instead of an error channel — and the value returned to the caller is just
the decoded text with the detected encoding: the had-errors flag does not
influence it (it only drives a debug trace inside the operation). -/
theorem c2_amended_read_never_errors (bytes : List Nat) (ue : Option Encoding)
    (se : Encoding) (decode decode2 : Encoding → List Nat → String × Bool) :
    (read_file_with_encoding (Except.ok bytes) ue se decode).isOk = true ∧
    read_file_with_encoding (Except.ok bytes) ue se decode
      = Except.ok ((decode (detect_encoding bytes ue se).encoding bytes).1,
          detect_encoding bytes ue se) ∧
    ((∀ e bs, (decode e bs).1 = (decode2 e bs).1) →
      read_file_with_encoding (Except.ok bytes) ue se decode
        = read_file_with_encoding (Except.ok bytes) ue se decode2) := by
  refine ⟨rfl, rfl, fun h => ?_⟩
  simp only [read_file_with_encoding]
  rw [h]

/-- Witness for C2 (amended): two decoders that agree on the text but report
opposite had-errors flags give the caller the very same result, on the
malformed byte sequence `[0xFF]`. -/
theorem c2_witness :
    read_file_with_encoding (Except.ok [0xFF]) none Encoding.utf8 decodeBytes
      = read_file_with_encoding (Except.ok [0xFF]) none Encoding.utf8
          (fun e bs => ((decodeBytes e bs).1, !(decodeBytes e bs).2)) :=
  (c2_amended_read_never_errors [0xFF] none Encoding.utf8 decodeBytes
    (fun e bs => ((decodeBytes e bs).1, !(decodeBytes e bs).2))).2.2
    (fun _ _ => rfl)

/-- C2 counterexample: the claim says the caller of the read-and-decode
operation receives the had-errors flag.  It does not: on two byte sequences
for which the decode step reports opposite had-errors flags (a UTF-16LE BOM
followed by a lone surrogate, versus followed by U+FFFD itself), the
operation returns identical values to its caller, so the flag is not part of
what the caller receives. -/
theorem c2_counterexample :
    read_file_with_encoding (Except.ok [0xFF, 0xFE, 0x00, 0xD8]) none
        Encoding.utf8 decodeBytes
      = read_file_with_encoding (Except.ok [0xFF, 0xFE, 0xFD, 0xFF]) none
          Encoding.utf8 decodeBytes ∧
    (decodeBytes (detect_encoding [0xFF, 0xFE, 0x00, 0xD8] none Encoding.utf8).encoding
        [0xFF, 0xFE, 0x00, 0xD8]).2 = true ∧
    (decodeBytes (detect_encoding [0xFF, 0xFE, 0xFD, 0xFF] none Encoding.utf8).encoding
        [0xFF, 0xFE, 0xFD, 0xFF]).2 = false := by
  decide

/-! ## Concrete instruments for evaluating the renderer -/

/-- A trivial grammar engine: stateless, tokenizes every line to no spans. -/
def unitEngine : GrammarEngine Unit :=
  { init := fun _ _ => ()
    tokenize := fun s _ => Except.ok ([], s)
    ansi256 := fun _ => 0 }

/-- A minimal registry with only the plain-text grammar. -/
def ssTriv : SynSet :=
  { syntaxes := []
    byFirstLine := fun _ => none
    plain := ⟨"Plain Text", []⟩ }

/-- A sink on which every write succeeds. -/
def allOk : Nat → Option ErrorKind := fun _ => none

/-- A byte-counting engine: its state counts the bytes tokenized so far and
its single span colours the line by the state at entry.  Used to observe
whether the tokenizer state advanced as if a line had been tokenized. -/
def ctEng : GrammarEngine Nat :=
  { init := fun _ _ => 0
    tokenize := fun s t => Except.ok ([(⟨min s 255, 0, 0⟩, t)], s + byteLen t)
    ansi256 := fun _ => 0 }

/-- A line highlighter over `ctEng` at state 0, non-plain-text, true colour. -/
def lhL : LineHighlighter Nat := ⟨0, true, false⟩

/-- A line of 16385 ASCII bytes: just over the 16 KiB long-line threshold. -/
def longLine : String := String.mk (List.replicate 16385 'a')

/-- An engine whose tokenizer fails on every line. -/
def failEng : GrammarEngine Unit :=
  { init := fun _ _ => ()
    tokenize := fun _ _ => Except.error ()
    ansi256 := fun _ => 0 }

/-- A line highlighter over `failEng`: non-plain-text, true colour. -/
def lhF : LineHighlighter Unit := ⟨(), true, false⟩

lemma byteLen_longLine : byteLen longLine = 16385 := by
  have h1 : Char.utf8Size 'a' = 1 := rfl
  show ((List.replicate 16385 'a').map Char.utf8Size).sum = 16385
  rw [List.map_replicate, List.sum_replicate, h1, smul_eq_mul, mul_one]

lemma byteLen_newline : byteLen "\n" = 1 := rfl

/-! ## Claims C3, C4, C5 -/

/-- C3 (amended): an unknown theme is not fatal: the construction error from
`Highlighter::new` is discarded by `.ok()` in `print_content_streaming`, so
a run with highlighting enabled and an unknown theme behaves exactly like a
run with highlighting disabled — the document is printed unstyled and the
renderer reports success. -/
theorem c3_amended_unknown_theme_silent {σ : Type} (eng : GrammarEngine σ)
    (ss : SynSet) (lines : List String) (sn : Bool) (path : Option RPath)
    (theme : Option String) (lang : Option String) (tc : Bool)
    (sink : Nat → Option ErrorKind) (msg : String)
    (h : Highlighter.new theme tc = Except.error msg) :
    print_content_streaming eng ss lines sn path true theme lang tc sink
      = print_content_streaming eng ss lines sn path false theme lang tc sink := by
  simp [print_content_streaming, h, Except.toOption]

/-- Witness for C3 (amended): with the unknown theme name "no-such-theme",
the highlighted run coincides with the non-highlighted run. -/
theorem c3_witness :
    print_content_streaming unitEngine ssTriv ["hi\n"] false none true
        (some "no-such-theme") none false allOk
      = print_content_streaming unitEngine ssTriv ["hi\n"] false none false
          (some "no-such-theme") none false allOk :=
  c3_amended_unknown_theme_silent unitEngine ssTriv ["hi\n"] false none
    (some "no-such-theme") none false allOk "Theme not found: no-such-theme"
    (by decide)

/-- C3 counterexample: the claim says an unknown theme is fatal, reported
before any output with a non-zero exit.  Instead, with highlighting enabled
and the unknown theme "no-such-theme", `Highlighter::new` does fail, but the
renderer prints the document unstyled and returns success (exit status 0). -/
theorem c3_counterexample :
    (Highlighter.new (some "no-such-theme") false).isOk = false ∧
    print_content_streaming unitEngine ssTriv ["hi\n"] false none true
        (some "no-such-theme") none false allOk
      = ("hi\n", Except.ok ()) := by
  decide

/-- C4 (amended): for a non-plain-text grammar, a line longer than 16 KiB is
returned unchanged (no styling added), and the tokenizer state advances
exactly as if the line had been a bare "\n" terminator — not as if the long
line itself had been tokenized. -/
theorem c4_amended_long_line {σ : Type} (eng : GrammarEngine σ)
    (lh : LineHighlighter σ) (line : String) (spans : List (Style × String)) (s2 : σ)
    (h1 : lh.is_plain_text = false) (h2 : 16 * 1024 < byteLen line)
    (h3 : eng.tokenize lh.state "\n" = Except.ok (spans, s2)) :
    highlight_line eng lh line = Except.ok (line, { lh with state := s2 }) := by
  simp [highlight_line, h1, h2, h3]

/-- Witness for C4 (amended): the 16385-byte line over the byte-counting
engine is returned unchanged with the state advanced by one byte (the fed
"\n"), not by 16385. -/
theorem c4_witness :
    lhL.is_plain_text = false ∧ 16 * 1024 < byteLen longLine ∧
    highlight_line ctEng lhL longLine = Except.ok (longLine, { lhL with state := 1 }) :=
  ⟨rfl, by rw [byteLen_longLine]; norm_num,
    c4_amended_long_line ctEng lhL longLine [(⟨0, 0, 0⟩, "\n")] 1 rfl
      (by rw [byteLen_longLine]; norm_num) rfl⟩

/-- C4 counterexample: the claim says subsequent lines are styled exactly as
if the long line had been tokenized normally.  Over the byte-counting
engine, skipping the 16385-byte line leaves the state at 1 (one "\n" byte),
while tokenizing it normally would leave the state at 16385 — and the next
line "x\n" is then styled differently in the two states. -/
theorem c4_counterexample :
    highlight_line ctEng lhL longLine = Except.ok (longLine, { lhL with state := 1 }) ∧
    ctEng.tokenize lhL.state longLine = Except.ok ([(⟨0, 0, 0⟩, longLine)], 16385) ∧
    highlight_line ctEng { lhL with state := 1 } "x\n"
      ≠ highlight_line ctEng { lhL with state := 16385 } "x\n" := by
  refine ⟨?_, ?_, ?_⟩
  · simp [highlight_line, lhL, ctEng, byteLen_longLine, byteLen_newline]
  · simp [ctEng, lhL, byteLen_longLine]
  · decide

/-- C5: when per-line highlighting fails, the renderer emits the raw line
(numbered when requested) with a success result, and the streaming loop
continues with the remaining lines — a highlight failure never aborts the
document. -/
theorem c5_highlight_failure_unstyled :
    (∀ (σ : Type) (eng : GrammarEngine σ) (lh : LineHighlighter σ)
        (line : String) (n : Nat) (sn : Bool),
      highlight_line eng lh line = Except.error () →
      print_single_line eng lh line n sn none
        = (lh, (if sn then toString n ++ " " ++ line else line), Except.ok ())) ∧
    (∀ (σ : Type) (eng : GrammarEngine σ) (lh : LineHighlighter σ)
        (line : String) (rest : List String) (n w : Nat) (sn : Bool)
        (sink : Nat → Option ErrorKind),
      highlight_line eng lh line = Except.error () → sink w = none →
      renderLoop eng sink sn (some lh) (line :: rest) n w
        = ((if sn then toString n ++ " " ++ line else line)
            ++ (renderLoop eng sink sn (some lh) rest (n + 1) (w + 1)).1,
           (renderLoop eng sink sn (some lh) rest (n + 1) (w + 1)).2)) := by
  constructor
  · intro σ eng lh line n sn h
    simp [print_single_line, h]
  · intro σ eng lh line rest n w sn sink h hs
    simp [renderLoop, print_single_line, h, hs]

/-- Witness for C5: over the always-failing engine, the line "x" is emitted
raw and numbered, with a success result. -/
theorem c5_witness :
    highlight_line failEng lhF "x" = Except.error () ∧
    print_single_line failEng lhF "x" 3 true none = (lhF, "3 x", Except.ok ()) :=
  ⟨by decide,
    by rw [c5_highlight_failure_unstyled.1 Unit failEng lhF "x" 3 true (by decide)]; decide⟩

/-! ## Claim C6 -/

/-- A Rust-flavoured grammar for the C6 witness. -/
def rustSyn : Syn := ⟨"Rust", ["rs"]⟩

/-- A Python-flavoured grammar for the C6 witness. -/
def pySyn : Syn := ⟨"Python", ["py"]⟩

/-- A small concrete registry for the C6 witness. -/
def ssW : SynSet :=
  { syntaxes := [rustSyn, pySyn, ⟨"Makefile", ["make", "mk"]⟩, ⟨"Plain Text", ["txt"]⟩]
    byFirstLine := fun l => if l == "#!/usr/bin/python" then some pySyn else none
    plain := ⟨"Plain Text", ["txt"]⟩ }

/-- C6: grammar selection is deterministic (it is a pure function of the
inputs) and follows the claimed precedence: (1) an explicit language name,
matched case-insensitively against grammar names and extensions, beats any
path-derived match; with no language match, (2) the file extension, then
(3) the exact filename followed by the case-insensitive special names
makefile/gnumakefile/dockerfile, then (4) a shebang-prefixed first line,
then (5) the plain-text fallback. -/
theorem c6_grammar_selection_precedence :
    (∀ (ss : SynSet) (lang : String) (s : Syn) (path : Option RPath)
        (fl : Option String),
      Highlighter.find_syn_by_name ss lang = some s →
      select_syn ss path fl (some lang) = s) ∧
    (∀ (ss : SynSet) (lang : String) (s : Syn),
      Highlighter.find_syn_by_name ss lang = some s →
      lowerStr s.name = lowerStr lang ∨
        ∃ e ∈ s.file_extensions, lowerStr e = lowerStr lang) ∧
    (∀ (ss : SynSet) (lang : String) (path : Option RPath) (fl : Option String),
      Highlighter.find_syn_by_name ss lang = none →
      select_syn ss path fl (some lang) = detect_syn ss fl path) ∧
    (∀ (ss : SynSet) (path : Option RPath) (fl : Option String),
      select_syn ss path fl none = detect_syn ss fl path) ∧
    (∀ (ss : SynSet) (p : RPath) (fl : Option String) (s : Syn),
      syn_from_path ss p = some s → detect_syn ss fl (some p) = s) ∧
    (∀ (ss : SynSet) (p : RPath) (e : String) (s : Syn),
      p.extension = some e → SynSet.find_syn_by_extension ss e = some s →
      syn_from_path ss p = some s) ∧
    (∀ (ss : SynSet) (p : RPath) (nm : String) (s : Syn),
      (∀ e, p.extension = some e → SynSet.find_syn_by_extension ss e = none) →
      p.fileName = some nm → SynSet.find_syn_by_name ss nm = some s →
      syn_from_path ss p = some s) ∧
    (∀ (ss : SynSet) (p : RPath) (nm : String) (s : Syn),
      (∀ e, p.extension = some e → SynSet.find_syn_by_extension ss e = none) →
      p.fileName = some nm → SynSet.find_syn_by_name ss nm = none →
      special_filename ss nm = some s →
      syn_from_path ss p = some s) ∧
    (∀ (ss : SynSet) (nm : String),
      lowerStr nm = "makefile" ∨ lowerStr nm = "gnumakefile" →
      special_filename ss nm = SynSet.find_syn_by_name ss "Makefile") ∧
    (∀ (ss : SynSet) (nm : String),
      lowerStr nm = "dockerfile" →
      special_filename ss nm = SynSet.find_syn_by_name ss "Dockerfile") ∧
    (∀ (ss : SynSet) (p : RPath) (l : String) (s : Syn),
      syn_from_path ss p = none → startsWithStr l "#!" = true →
      SynSet.find_syn_by_first_line ss l = some s →
      detect_syn ss (some l) (some p) = s) ∧
    (∀ (ss : SynSet) (l : String) (s : Syn),
      startsWithStr l "#!" = true → SynSet.find_syn_by_first_line ss l = some s →
      detect_syn ss (some l) none = s) ∧
    (∀ (ss : SynSet) (l : String),
      startsWithStr l "#!" = false → detect_syn ss (some l) none = ss.plain) ∧
    (∀ ss : SynSet, detect_syn ss none none = ss.plain) ∧
    (∀ (ss : SynSet) (p : RPath) (l : String),
      syn_from_path ss p = none →
      (startsWithStr l "#!" = true → SynSet.find_syn_by_first_line ss l = none) →
      detect_syn ss (some l) (some p) = ss.plain) := by
  refine ⟨?_, ?_, ?_, ?_, ?_, ?_, ?_, ?_, ?_, ?_, ?_, ?_, ?_, ?_, ?_⟩
  · intro ss lang s path fl h
    simp [select_syn, h]
  · intro ss lang s h
    unfold Highlighter.find_syn_by_name at h
    rcases hx : SynSet.find_syn_by_name ss lang with _ | s0
    · rw [hx] at h
      have hp := List.find?_some h
      rcases Bool.or_eq_true _ _ |>.mp hp with h1 | h2
      · exact Or.inl (by simpa using h1)
      · refine Or.inr ?_
        rcases List.any_eq_true.mp h2 with ⟨e, he, heq⟩
        exact ⟨e, he, by simpa using heq⟩
    · rw [hx] at h
      cases h
      have hp := List.find?_some (by simpa [SynSet.find_syn_by_name] using hx)
      exact Or.inl (by simp [beq_iff_eq] at hp; rw [hp])
  · intro ss lang path fl h
    simp [select_syn, h]
  · intro ss path fl
    simp [select_syn]
  · intro ss p fl s h
    simp [detect_syn, h]
  · intro ss p e s h1 h2
    simp [syn_from_path, h1, h2]
  · intro ss p nm s hext hnm hname
    rcases he : p.extension with _ | e
    · simp [syn_from_path, he, hnm, hname]
    · simp [syn_from_path, he, hext e he, hnm, hname]
  · intro ss p nm s hext hnm hname hspec
    rcases he : p.extension with _ | e
    · simp [syn_from_path, he, hnm, hname, hspec]
    · simp [syn_from_path, he, hext e he, hnm, hname, hspec]
  · intro ss nm h
    rcases h with h | h <;> simp [special_filename, h]
  · intro ss nm h
    simp [special_filename, h]
  · intro ss p l s hp hsb hfl
    simp [detect_syn, hp, hsb, hfl]
  · intro ss l s hsb hfl
    simp [detect_syn, hsb, hfl]
  · intro ss l hsb
    simp [detect_syn, hsb]
  · intro ss
    simp [detect_syn]
  · intro ss p l hp hsb
    rcases hb : startsWithStr l "#!" with _ | _
    · simp [detect_syn, hp, hb]
    · simp [detect_syn, hp, hb, hsb hb]

/-- Witness for C6: the explicit language "RUST" matches the Rust grammar
case-insensitively and overrides the conflicting path-derived match that
the file name "x.py" would give. -/
theorem c6_witness :
    select_syn ssW (some ⟨some "x.py"⟩) none (some "RUST") = rustSyn :=
  c6_grammar_selection_precedence.1 ssW "RUST" rustSyn (some ⟨some "x.py"⟩) none
    (by decide)

/-! ## Claims C7, C8, C9, C10 -/

lemma renderLoop_ok {σ : Type} (eng : GrammarEngine σ) (sink : Nat → Option ErrorKind)
    (sn : Bool) (h : ∀ i, sink i = none ∨ sink i = some ErrorKind.brokenPipe) :
    ∀ (lines : List String) (lhOpt : Option (LineHighlighter σ)) (n w : Nat),
      (renderLoop eng sink sn lhOpt lines n w).2 = Except.ok () := by
  intro lines
  induction lines with
  | nil => intro lhOpt n w; cases lhOpt <;> simp [renderLoop]
  | cons line rest ih =>
    intro lhOpt n w
    cases lhOpt with
    | none =>
      rcases h w with hw | hw <;> simp [renderLoop, print_plain_line, hw, ih]
    | some lh =>
      rcases h w with hw | hw <;> simp [renderLoop, print_single_line, hw, ih]

lemma renderLoop_plain {σ : Type} (eng : GrammarEngine σ) (sn : Bool) :
    ∀ (lines : List String) (n w : Nat),
      renderLoop eng allOk sn none lines n w
        = ((if sn then numberedFrom n lines else concatLines lines), Except.ok ()) := by
  intro lines
  induction lines with
  | nil => intro n w; cases sn <;> simp [renderLoop, numberedFrom, concatLines]
  | cons line rest ih =>
    intro n w
    cases sn <;> simp [renderLoop, print_plain_line, allOk, numberedFrom, concatLines, ih]

lemma splitLinesAux_join :
    ∀ (cs acc : List Char), (splitLinesAux cs acc).flatten = acc.reverse ++ cs := by
  intro cs
  induction cs with
  | nil => intro acc; cases acc <;> simp [splitLinesAux]
  | cons c rest ih =>
    intro acc
    by_cases hc : c = '\n'
    · subst hc; simp [splitLinesAux, ih]
    · simp [splitLinesAux, hc, ih]

lemma concatLines_map_mk :
    ∀ L : List (List Char), concatLines (L.map String.mk) = String.mk L.flatten := by
  intro L
  induction L with
  | nil => rfl
  | cons a rest ih =>
    show String.mk a ++ concatLines (rest.map String.mk) = String.mk ((a :: rest).flatten)
    rw [ih]
    rfl

lemma concatLines_split (s : String) : concatLines (splitLinesKeepEnds s) = s := by
  rw [splitLinesKeepEnds, concatLines_map_mk, splitLinesAux_join]
  rfl

lemma head?_dropWhile_not {α : Type} (p : α → Bool) :
    ∀ (l : List α) (a : α), (l.dropWhile p).head? = some a → p a = false := by
  intro l
  induction l with
  | nil => intro a h; simp [List.dropWhile] at h
  | cons x rest ih =>
    intro a h
    by_cases hx : p x = true
    · rw [List.dropWhile_cons_of_pos hx] at h
      exact ih a h
    · rw [List.dropWhile_cons_of_neg hx] at h
      simp at h
      rw [← h]
      exact Bool.eq_false_iff.mpr hx

/-- C7 (evaluating the code at the failing input): with line numbers
requested and highlighting disabled, the streaming renderer numbers the
lines of "a\nb\n" as 2 and 3 — the counter starts at 2 because the loop
assumes the first line was already printed by the highlighting path.  With
highlighting enabled (plain-text grammar), the same input is numbered 1
and 2 as the claim describes. -/
theorem c7_plain_numbering_starts_at_two :
    print_content_streaming unitEngine ssTriv ["a\n", "b\n"] true none false
        none none false allOk
      = ("2 a\n3 b\n", Except.ok ()) ∧
    print_content_streaming unitEngine ssTriv ["a\n", "b\n"] true none true
        none none false allOk
      = ("1 a\n2 b\n", Except.ok ()) := by
  decide

/-- C8: a BrokenPipe write failure is swallowed: each per-line printer
returns success on a broken pipe, and a whole streaming run over a sink
whose writes only ever succeed or break the pipe ends with success — the
renderer neither crashes nor propagates an error, so the process exit
status is unaffected. -/
theorem c8_broken_pipe_swallowed :
    (∀ (σ : Type) (eng : GrammarEngine σ) (ss : SynSet) (lines : List String)
        (sn : Bool) (path : Option RPath) (eh : Bool) (theme lang : Option String)
        (tc : Bool) (sink : Nat → Option ErrorKind),
      (∀ i, sink i = none ∨ sink i = some ErrorKind.brokenPipe) →
      (print_content_streaming eng ss lines sn path eh theme lang tc sink).2
        = Except.ok ()) ∧
    (∀ (σ : Type) (eng : GrammarEngine σ) (lh : LineHighlighter σ) (line : String)
        (n : Nat) (sn : Bool),
      (print_single_line eng lh line n sn (some ErrorKind.brokenPipe)).2.2
        = Except.ok ()) ∧
    (∀ (line : String) (n : Nat) (sn : Bool),
      (print_plain_line line n sn (some ErrorKind.brokenPipe)).2 = Except.ok ()) := by
  refine ⟨?_, ?_, ?_⟩
  · intro σ eng ss lines sn path eh theme lang tc sink h
    have hloop := renderLoop_ok eng sink sn h
    rcases hopt : (if eh then (Highlighter.new theme tc).toOption else none) with _ | hl
    · simp [print_content_streaming, hopt, hloop]
    · by_cases hfe : ((lines.head?).getD "").isEmpty
      · simp [print_content_streaming, hopt, hfe, hloop]
      · rcases h 0 with h0 | h0 <;>
          simp [print_content_streaming, hopt, hfe, print_single_line, h0, hloop]
  · intro σ eng lh line n sn
    simp [print_single_line]
  · intro line n sn
    simp [print_plain_line]

/-- Witness for C8: a run in which every write breaks the pipe still ends
with success. -/
theorem c8_witness :
    (print_content_streaming unitEngine ssTriv ["x\n"] false none false none none
        false (fun _ => some ErrorKind.brokenPipe)).2 = Except.ok () :=
  c8_broken_pipe_swallowed.1 Unit unitEngine ssTriv ["x\n"] false none false none
    none false (fun _ => some ErrorKind.brokenPipe) (fun _ => Or.inr rfl)

/-- C9 (amended): with `--color never`, highlighting is disabled, so no
styling escapes are introduced: without line numbers the output is
byte-identical to the decoded text; with line numbers each line is emitted
as a counter (starting at 2 — the streaming numbering slip), a space, the
line with its trailing whitespace removed, and a single newline, so trailing
whitespace and original terminators are not preserved. -/
theorem c9_amended_color_never {σ : Type} (eng : GrammarEngine σ) (ss : SynSet)
    (content : String) (sn : Bool) (path : Option RPath)
    (theme lang : Option String) (tc noHl isTerm : Bool) :
    print_content_streaming eng ss (splitLinesKeepEnds content) sn path
        (!noHl && ColorMode.should_colorize ColorMode.Never isTerm) theme lang tc allOk
      = ((if sn then numberedFrom 2 (splitLinesKeepEnds content) else content),
         Except.ok ()) := by
  have hc : ColorMode.should_colorize ColorMode.Never isTerm = false := rfl
  rw [hc, Bool.and_false]
  cases sn <;>
    simp [print_content_streaming, renderLoop_plain, concatLines_split]

/-- C9 counterexample: with `--color never` and line numbers on the decoded
text "a \n" (one line with a trailing space), the output is "2 a\n": the
line body is not preserved — its trailing space is gone (and the counter
starts at 2) — so the output is not the decoded text with number prefixes
added. -/
theorem c9_counterexample :
    print_content_streaming unitEngine ssTriv (splitLinesKeepEnds "a \n") true none
        (ColorMode.should_colorize ColorMode.Never true) none none false allOk
      = ("2 a\n", Except.ok ()) ∧
    List.isSuffixOf "a \n".data "2 a\n".data = false := by
  decide

/-- C10: in numbered plain output each line is written as the number, a
space, the line with all trailing whitespace removed (not only the
terminator), and a re-added newline — so trailing spaces or tabs are lost —
while without line numbers the line is written byte-for-byte; and the
trimmed line indeed never ends in a whitespace character. -/
theorem c10_plain_line_trim :
    (∀ (line : String) (n : Nat),
      print_plain_line line n true none
        = (toString n ++ " " ++ rustTrimEnd line ++ "\n", Except.ok ())) ∧
    (∀ (line : String) (n : Nat),
      print_plain_line line n false none = (line, Except.ok ())) ∧
    (∀ (line : String) (c : Char),
      (rustTrimEnd line).data.getLast? = some c → isRustWhitespace c = false) := by
  refine ⟨fun line n => rfl, fun line n => rfl, ?_⟩
  intro line c h
  have h2 : (line.data.reverse.dropWhile isRustWhitespace).head? = some c := by
    have := h
    rwa [show (rustTrimEnd line).data
        = (line.data.reverse.dropWhile isRustWhitespace).reverse from rfl,
      List.getLast?_reverse] at this
  exact head?_dropWhile_not isRustWhitespace _ c h2

/-- Witness for C10: the line "a \t\n" printed as numbered plain output loses
its trailing blank, tab and newline, and the trimmed text ends in the
non-whitespace character a. -/
theorem c10_witness :
    print_plain_line "a \t\n" 7 true none = ("7 a\n", Except.ok ()) ∧
    isRustWhitespace 'a' = false := by
  constructor
  · rw [c10_plain_line_trim.1 "a \t\n" 7]
    decide
  · exact c10_plain_line_trim.2.2 "a " 'a' (by decide)

end Cate
